import Mathlib

/-!
Verification development for a quiz/comment backend.

The embedding follows `main.py` and `database.py`:
* pydantic models become structures;
* the SQLite tables (`quiz_records`, `user_scores`, `quiz_stats`) become
  lists of rows inside a `Database` structure, in insertion (rowid) order;
* the SQLAlchemy session is modelled by `DbSession` (a committed database
  plus a list of pending writes that take effect only at `commit`);
* each HTTP handler becomes a pure function; fallible handlers return
  `Except ApiError`;
* an accuracy percentage rounded to 2 decimals is always a whole number
  of hundredths, so it is carried exactly as that integer (`_x100`
  fields), with Python `round` (half to even) modelled by
  `round_div_half_even` on integer fractions.
-/

namespace KnowledgeShare

/-- Model of `QuizOption` (main.py lines 64-68). -/
structure QuizOption where
  label : String
  text : String
  isCorrect : Bool
  deriving DecidableEq

/-- Model of `Quiz` (main.py lines 70-74). -/
structure Quiz where
  id : String
  question : String
  options : List QuizOption
  deriving DecidableEq

/-- Model of `QuizAnswer` (main.py lines 76-81); the optional identity
fields become `Option String`. -/
structure QuizAnswer where
  quizId : String
  selectedOption : String
  userName : Option String
  userId : Option String
  deriving DecidableEq

/-- Model of `QuizResult` (main.py lines 83-87). -/
structure QuizResult where
  isCorrect : Bool
  correctAnswer : String
  message : String
  deriving DecidableEq

/-- Model of `Comment` (main.py lines 45-52); the generated id is passed
in explicitly by the caller of `create_comment`. -/
structure Comment where
  id : String
  userName : String
  content : String
  time : String
  likes : Int
  liked : Bool
  deriving DecidableEq

/-- Row of the `quiz_records` table (database.py lines 27-37); the
autoincrement id and the timestamp column are not modelled, rows are kept
in insertion order. -/
structure QuizRecord where
  quiz_id : String
  user_id : String
  user_name : String
  selected_option : String
  is_correct : Bool
  deriving DecidableEq

/-- Row of the `user_scores` table (database.py lines 39-48). -/
structure UserScore where
  user_name : String
  correct_count : Int
  wrong_count : Int
  total_score : Int
  deriving DecidableEq

/-- Row of the `quiz_stats` table (database.py lines 50-59). -/
structure QuizStat where
  quiz_id : String
  correct_count : Int
  wrong_count : Int
  total_count : Int
  deriving DecidableEq

/-- The three persistent tables, each as a list of rows in insertion
order. -/
structure Database where
  quiz_records : List QuizRecord
  user_scores : List UserScore
  quiz_stats : List QuizStat
  deriving DecidableEq

/-- The freshly initialised database: all tables empty. -/
def empty_db : Database :=
  { quiz_records := [], user_scores := [], quiz_stats := [] }

/-- The fixed quiz table `quizzes_db` (main.py lines 94-105). -/
def quiz_1 : Quiz :=
  { id := "quiz_1"
    question := "在进行日常听音训练或混音练习时，为什么建议将重放声压级控制在 75–85 dB 之间？"
    options :=
      [ { label := "A", text := "因为这个声压级既能保持听觉敏感度，又能防止听力疲劳", isCorrect := true },
        { label := "B", text := "因为声音越大越容易听清细节", isCorrect := false },
        { label := "C", text := "因为小音量下听不出差别", isCorrect := false },
        { label := "D", text := "因为这个范围最接近日常真实聆听环境，能帮助培养自然听感", isCorrect := false } ] }

/-- The quiz dictionary, as a list keyed by `Quiz.id`. -/
def quizzes_db : List Quiz := [quiz_1]

/-- Errors raised through `HTTPException`: status 404 and status 400. -/
inductive ApiError where
  | notFound (detail : String)
  | invalidInput (detail : String)
  deriving DecidableEq

/-- Python truthiness of an optional string: `None` and `""` are falsy.
Used for `if answer.userName and answer.userId` (main.py line 199). -/
def truthy : Option String → Bool
  | none => false
  | some s => !(s == "")

/-- Replace the first element satisfying `p` by its image under `f`,
modelling in-place mutation of the first matching object/row. -/
def updateFirst (p : α → Bool) (f : α → α) : List α → List α
  | [] => []
  | a :: rest => if p a then f a :: rest else a :: updateFirst p f rest

/-- Round the fraction `a / b` (with `b > 0`) to the nearest integer,
ties to even: the model of Python `round` (banker's rounding). `f` is the
floor of the fraction and `r2 / 2b` its fractional part, so comparing
`r2` with `b` compares the fractional part with one half. -/
def round_div_half_even (a b : ℤ) : ℤ :=
  let f : ℤ := Int.fdiv a b
  let r2 : ℤ := 2 * (a - f * b)
  if r2 < b then f
  else if b < r2 then f + 1
  else if f % 2 = 0 then f else f + 1

/-- Model of Python `round(correct / total * 100, 2)`, returned as an
exact integer number of hundredths of a percent:
`round(c / t * 100, 2) * 100 = round_half_even(c * 10000 / t)`. -/
def accuracy_x100 (correct total : ℤ) : ℤ :=
  round_div_half_even (correct * 10000) total

/-- A new `UserScore` row as created on the first identified submission of
a user (main.py lines 215-221): score increment 8 per correct answer. -/
def new_user_score (un : String) (is_correct : Bool) : UserScore :=
  { user_name := un
    correct_count := if is_correct then 1 else 0
    wrong_count := if is_correct then 0 else 1
    total_score := if is_correct then 8 else 0 }

/-- In-place update of an existing `UserScore` row (main.py lines
223-228): +1 correct and +8 score on a correct answer, else +1 wrong. -/
def bump_user_score (s : UserScore) (is_correct : Bool) : UserScore :=
  if is_correct then
    { s with correct_count := s.correct_count + 1, total_score := s.total_score + 8 }
  else
    { s with wrong_count := s.wrong_count + 1 }

/-- The `UserScore` upsert performed by `submit_answer` (main.py lines
210-228): query by `user_name`, create the row if absent, else update the
first matching row in place. -/
def update_user_score (scores : List UserScore) (un : String) (is_correct : Bool) :
    List UserScore :=
  match scores.find? (fun s => s.user_name == un) with
  | none => scores ++ [new_user_score un is_correct]
  | some _ => updateFirst (fun s => s.user_name == un) (fun s => bump_user_score s is_correct) scores

/-- A new `QuizStat` row as created on the first identified submission for
a quiz (main.py lines 233-241). -/
def new_quiz_stat (qid : String) (is_correct : Bool) : QuizStat :=
  { quiz_id := qid
    correct_count := if is_correct then 1 else 0
    wrong_count := if is_correct then 0 else 1
    total_count := 1 }

/-- In-place update of an existing `QuizStat` row (main.py lines
242-248). -/
def bump_quiz_stat (s : QuizStat) (is_correct : Bool) : QuizStat :=
  if is_correct then
    { s with correct_count := s.correct_count + 1, total_count := s.total_count + 1 }
  else
    { s with wrong_count := s.wrong_count + 1, total_count := s.total_count + 1 }

/-- The `QuizStat` upsert performed by `submit_answer` (main.py lines
230-248). -/
def update_quiz_stat (stats : List QuizStat) (qid : String) (is_correct : Bool) :
    List QuizStat :=
  match stats.find? (fun s => s.quiz_id == qid) with
  | none => stats ++ [new_quiz_stat qid is_correct]
  | some _ => updateFirst (fun s => s.quiz_id == qid) (fun s => bump_quiz_stat s is_correct) stats

/-- A pending write queued on the SQLAlchemy session: `db.add` of a new
record, or the upsert of an aggregate row. -/
inductive DbWrite where
  | addRecord (r : QuizRecord)
  | upsertUserScore (un : String) (is_correct : Bool)
  | upsertQuizStat (qid : String) (is_correct : Bool)
  deriving DecidableEq

/-- One step of session activity: queue a write, or commit. -/
inductive SessionOp where
  | write (w : DbWrite)
  | commit
  deriving DecidableEq

/-- Apply one write to the stored database (what `commit` does per pending
change). -/
def apply_write (db : Database) : DbWrite → Database
  | .addRecord r => { db with quiz_records := db.quiz_records ++ [r] }
  | .upsertUserScore un c => { db with user_scores := update_user_score db.user_scores un c }
  | .upsertQuizStat qid c => { db with quiz_stats := update_quiz_stat db.quiz_stats qid c }

/-- Model of a SQLAlchemy session (`autocommit=False`): a committed
database plus pending writes visible only after `commit`. -/
structure DbSession where
  committed : Database
  pending : List DbWrite
  deriving DecidableEq

/-- One session operation: writes accumulate as pending, `commit` applies
every pending write to the committed database. -/
def session_step (s : DbSession) : SessionOp → DbSession
  | .write w => { s with pending := s.pending ++ [w] }
  | .commit => { committed := s.pending.foldl apply_write s.committed, pending := [] }

/-- Run a list of session operations. -/
def run_session (s : DbSession) (ops : List SessionOp) : DbSession :=
  ops.foldl session_step s

/-- The session operations performed by `submit_answer` for an identified
submission (main.py lines 198-251): three writes then a single commit. -/
def submit_session_ops (answer : QuizAnswer) (is_correct : Bool) : List SessionOp :=
  [ .write (.addRecord
      { quiz_id := answer.quizId
        user_id := answer.userId.getD ""
        user_name := answer.userName.getD ""
        selected_option := answer.selectedOption
        is_correct := is_correct }),
    .write (.upsertUserScore (answer.userName.getD "") is_correct),
    .write (.upsertQuizStat answer.quizId is_correct),
    .commit ]

/-- Model of the handler `submit_answer` (main.py lines 180-257),
parametrised by the quiz table it consults. -/
def submit_answer (quizzes : List Quiz) (answer : QuizAnswer) (db : Database) :
    Except ApiError (QuizResult × Database) :=
  match quizzes.find? (fun q => q.id == answer.quizId) with
  | none => .error (.notFound "问题不存在")
  | some quiz =>
    match quiz.options.find? (fun o => o.isCorrect),
          quiz.options.find? (fun o => o.label == answer.selectedOption) with
    | some correct_option, some selected_option =>
      let is_correct := selected_option.isCorrect
      let message := if is_correct then "回答正确！" else "回答错误，重新试试吧"
      let db2 :=
        if truthy answer.userName && truthy answer.userId then
          (run_session { committed := db, pending := [] }
            (submit_session_ops answer is_correct)).committed
        else db
      .ok ({ isCorrect := is_correct, correctAnswer := correct_option.label,
             message := message }, db2)
    | _, _ => .error (.invalidInput "无效的选项")

/-- The shape of the response of `get_quiz_stats`; the rounded accuracy
is carried in hundredths of a percent. -/
structure QuizStatsView where
  correct : Int
  wrong : Int
  total : Int
  accuracy_x100 : Int
  deriving DecidableEq

/-- Model of the handler `get_quiz_stats` (main.py lines 259-270): it
reads the in-memory `quiz_stats` dictionary, modelled as an association
list from quiz id to the pair (correct, wrong); `round(accuracy, 2)` of
the percentage `correct / total * 100` is returned in hundredths. -/
def get_quiz_stats (stats_map : List (String × Int × Int)) (quiz_id : String) :
    QuizStatsView :=
  let stats := ((stats_map.find? (fun p => p.1 == quiz_id)).map Prod.snd).getD (0, 0)
  let total := stats.1 + stats.2
  { correct := stats.1, wrong := stats.2, total := total,
    accuracy_x100 := if total > 0 then accuracy_x100 stats.1 total else 0 }

/-- Model of the handler `create_comment` (main.py lines 125-134): the
generated id and formatted time are passed in by the environment; the new
comment is inserted at the front. -/
def create_comment (comments : List Comment) (userName content newId time : String) :
    List Comment :=
  { id := newId, userName := userName, content := content, time := time,
    likes := 0, liked := false } :: comments

/-- Model of the handler `toggle_like` (main.py lines 141-156): find the
first comment with the given id, 404 if absent, else mutate likes and the
liked flag in place and return the new like count. -/
def toggle_like (comments : List Comment) (commentId : String) (liked : Bool) :
    Except ApiError (Int × List Comment) :=
  match comments.find? (fun c => c.id == commentId) with
  | none => .error (.notFound "评论不存在")
  | some c =>
    let c2 :=
      if liked then { c with likes := c.likes + 1, liked := true }
      else { c with likes := max 0 (c.likes - 1), liked := false }
    .ok (c2.likes, updateFirst (fun x => x.id == commentId) (fun _ => c2) comments)

/-- Model of the handler `delete_comment` (main.py lines 158-163). -/
def delete_comment (comments : List Comment) (commentId : String) : List Comment :=
  comments.filter (fun c => !(c.id == commentId))

/-- One entry of the response of `get_user_stats` (main.py lines
285-293). -/
structure UserStatEntry where
  rank : Nat
  userName : String
  score : Int
  correct : Int
  wrong : Int
  total : Int
  accuracy_x100 : Int
  deriving DecidableEq

/-- Insert a row into a list sorted by `total_score` descending, before
the first row of smaller-or-equal score; used right-to-left this yields
the stable descending sort. -/
def insert_score_desc (u : UserScore) : List UserScore → List UserScore
  | [] => [u]
  | v :: rest =>
    if v.total_score ≤ u.total_score then u :: v :: rest
    else v :: insert_score_desc u rest

/-- Model of `db.query(UserScore).order_by(UserScore.total_score.desc())`
(main.py line 278): the stable sort of the rows by score descending,
rows of equal score staying in insertion order. -/
def order_by_score_desc (users : List UserScore) : List UserScore :=
  users.foldr insert_score_desc []

/-- One annotated row of the leaderboard (main.py lines 281-293):
1-based position as rank, total answered, accuracy rounded to 2
decimals. -/
def user_stat_entry (rank : Nat) (u : UserScore) : UserStatEntry :=
  let total := u.correct_count + u.wrong_count
  { rank := rank, userName := u.user_name, score := u.total_score,
    correct := u.correct_count, wrong := u.wrong_count, total := total,
    accuracy_x100 := if total > 0 then accuracy_x100 u.correct_count total else 0 }

/-- Model of the handler `get_user_stats` (main.py lines 274-295): rows
ordered by score descending, enumerated from rank 1. -/
def get_user_stats (users : List UserScore) : List UserStatEntry :=
  (order_by_score_desc users).enum.map (fun p => user_stat_entry (p.1 + 1) p.2)

/-- Header row of the exported spreadsheet (main.py line 395): sequence
number, user name, quiz id, selected option, result label, time. -/
def export_headers : List String := ["序号", "用户名", "问题ID", "选择答案", "答题结果", "答题时间"]

/-- The human-readable result label of one exported row (main.py line
444). -/
def record_result_text (is_correct : Bool) : String :=
  if is_correct then "✓ 正确" else "✗ 错误"

/-- Model of `db.query(QuizRecord).order_by(QuizRecord.answered_at.desc())`
(main.py line 404): records are appended in submission order with a
`datetime.now` timestamp, so time-descending order is the reverse of
insertion order. -/
def export_query (records : List QuizRecord) : List QuizRecord := records.reverse

/-- Cell contents of the spreadsheet produced by
`export_quiz_records_to_excel` (main.py lines 360-471), styling aside:
the header row followed by one row per record, sequence numbers from 1;
the formatted `answered_at` time of a record is supplied by `time_fmt`. -/
def export_rows (records : List QuizRecord) (time_fmt : QuizRecord → String) :
    List (List String) :=
  export_headers ::
    (export_query records).enum.map
      (fun p => [toString (p.1 + 1), p.2.user_name, p.2.quiz_id,
                 p.2.selected_option, record_result_text p.2.is_correct,
                 time_fmt p.2])

/-- The JSON body returned by `auto_save_quiz_records`. -/
structure AutoSaveResult where
  success : Bool
  message : String
  deriving DecidableEq

/-- Model of the handler `auto_save_quiz_records` (main.py lines
488-504): with zero stored records it returns success=false and the
"no records" message without exporting; otherwise it exports and returns
success=true (the produced sheet stands in for the saved file). -/
def auto_save_quiz_records (records : List QuizRecord) (time_fmt : QuizRecord → String) :
    AutoSaveResult × Option (List (List String)) :=
  if records.length == 0 then
    ({ success := false, message := "暂无答题记录" }, none)
  else
    ({ success := true, message := "答题记录已保存" }, some (export_rows records time_fmt))

/-- The full mutable state of the application: the database plus the two
in-memory stores `comments_db` (main.py line 92) and `quiz_stats`
(main.py line 114). -/
structure AppState where
  db : Database
  comments_db : List Comment
  quiz_stats : List (String × Int × Int)
  deriving DecidableEq

/-- The state at startup: empty database (fresh `init_db`), no comments,
empty in-memory `quiz_stats` dictionary. -/
def initial_state : AppState :=
  { db := empty_db, comments_db := [], quiz_stats := [] }

/-- The state-changing API operations; read-only handlers do not alter
the state. Identifiers generated by the environment (comment id, formatted
time) are operation parameters. -/
inductive ApiOp where
  | submitAnswer (answer : QuizAnswer)
  | createComment (userName content newId time : String)
  | toggleLike (commentId : String) (liked : Bool)
  | deleteComment (commentId : String)
  deriving DecidableEq

/-- One request against the application: handlers that raise leave the
state unchanged. -/
def api_step (s : AppState) : ApiOp → AppState
  | .submitAnswer answer =>
    match submit_answer quizzes_db answer s.db with
    | .ok r => { s with db := r.2 }
    | .error _ => s
  | .createComment userName content newId time =>
    { s with comments_db := create_comment s.comments_db userName content newId time }
  | .toggleLike commentId liked =>
    match toggle_like s.comments_db commentId liked with
    | .ok r => { s with comments_db := r.2 }
    | .error _ => s
  | .deleteComment commentId =>
    { s with comments_db := delete_comment s.comments_db commentId }

/-- Run a sequence of requests from a state. -/
def run_api (s : AppState) (ops : List ApiOp) : AppState :=
  ops.foldl api_step s

/-- The validation outcome of an answer against a quiz table: `some b`
when the quiz is known, some option is flagged correct and the selected
label matches an option whose correctness flag is `b`; `none` when the
submission would be rejected. -/
def answer_outcome (quizzes : List Quiz) (answer : QuizAnswer) : Option Bool :=
  match quizzes.find? (fun q => q.id == answer.quizId) with
  | none => none
  | some quiz =>
    match quiz.options.find? (fun o => o.isCorrect),
          quiz.options.find? (fun o => o.label == answer.selectedOption) with
    | some _, some selected_opt => some selected_opt.isCorrect
    | _, _ => none

/-- Run a sequence of answer submissions against the database, each one
through `submit_answer` (a rejected submission leaves the database
unchanged). -/
def submit_all (quizzes : List Quiz) (answers : List QuizAnswer) (db : Database) : Database :=
  answers.foldl
    (fun d a =>
      match submit_answer quizzes a d with
      | .ok r => r.2
      | .error _ => d) db

/-- Placeholder entry for positional access into a leaderboard. -/
def default_entry : UserStatEntry :=
  { rank := 0, userName := "", score := 0, correct := 0, wrong := 0, total := 0,
    accuracy_x100 := 0 }

/-- Placeholder row for positional access into a `UserScore` table. -/
def default_user : UserScore :=
  { user_name := "", correct_count := 0, wrong_count := 0, total_score := 0 }

/-- Two identified submissions to quiz_1: the first selects the correct
label "A", the second the wrong label "B". -/
def c1_submissions : List ApiOp :=
  [ ApiOp.submitAnswer
      { quizId := "quiz_1", selectedOption := "A", userName := some "张三", userId := some "user_1" },
    ApiOp.submitAnswer
      { quizId := "quiz_1", selectedOption := "B", userName := some "张三", userId := some "user_1" } ]

deriving instance DecidableEq for Except

/-! ### Helper lemmas -/

/-- Updating the first match keeps it the first match: if `a` is the
first element satisfying `p` and `f a` still satisfies `p`, then after
`updateFirst` the first element satisfying `p` is `f a`. -/
theorem find?_updateFirst {α} {p : α → Bool} {f : α → α} {l : List α} {a : α}
    (h : l.find? p = some a) (hfa : p (f a) = true) :
    (updateFirst p f l).find? p = some (f a) := by
  induction l with
  | nil => simp [List.find?] at h
  | cons x xs ih =>
    by_cases hx : p x
    · rw [List.find?_cons_of_pos _ hx] at h
      obtain rfl : x = a := by simpa using h
      simp [updateFirst, hx, List.find?_cons_of_pos _ hfa]
    · rw [List.find?_cons_of_neg _ hx] at h
      simp only [updateFirst, if_neg hx]
      rw [List.find?_cons_of_neg _ hx]
      exact ih h

/-- If filtering by `p` leaves exactly `[a]`, then `a` is the first
element satisfying `p`. -/
theorem find?_of_filter_singleton {α} {p : α → Bool} {l : List α} {a : α}
    (h : l.filter p = [a]) : l.find? p = some a := by
  induction l with
  | nil => simp at h
  | cons x xs ih =>
    by_cases hx : p x
    · rw [List.filter_cons, if_pos hx] at h
      have hxa : x = a ∧ xs.filter p = [] := by simpa using h
      obtain ⟨rfl, -⟩ := hxa
      exact List.find?_cons_of_pos _ hx
    · rw [List.filter_cons, if_neg hx] at h
      rw [List.find?_cons_of_neg _ hx]
      exact ih h

/-- A session that never commits leaves the committed database
untouched. -/
theorem run_session_no_commit {s : DbSession} {ops : List SessionOp}
    (h : SessionOp.commit ∉ ops) : (run_session s ops).committed = s.committed := by
  induction ops generalizing s with
  | nil => rfl
  | cons op rest ih =>
    cases op with
    | write w =>
      have := ih (s := session_step s (.write w)) (fun hm => h (List.mem_cons_of_mem _ hm))
      simpa [run_session, session_step] using this
    | commit => exact absurd (List.mem_cons_self _ _) h

/-- No request writes the in-memory `quiz_stats` dictionary. -/
theorem api_step_quiz_stats (s : AppState) (op : ApiOp) :
    (api_step s op).quiz_stats = s.quiz_stats := by
  cases op with
  | submitAnswer answer =>
    simp only [api_step]
    cases submit_answer quizzes_db answer s.db <;> rfl
  | createComment userName content newId time => rfl
  | toggleLike commentId liked =>
    simp only [api_step]
    cases toggle_like s.comments_db commentId liked <;> rfl
  | deleteComment commentId => rfl

/-- Over any run, the in-memory `quiz_stats` dictionary never changes. -/
theorem run_api_quiz_stats (ops : List ApiOp) (s : AppState) :
    (run_api s ops).quiz_stats = s.quiz_stats := by
  induction ops generalizing s with
  | nil => rfl
  | cons op rest ih =>
    calc (run_api s (op :: rest)).quiz_stats
        = (run_api (api_step s op) rest).quiz_stats := rfl
      _ = (api_step s op).quiz_stats := ih _
      _ = s.quiz_stats := api_step_quiz_stats s op

/-- A bump never changes which user a score row belongs to. -/
theorem bump_user_score_user_name (r : UserScore) (b : Bool) :
    (bump_user_score r b).user_name = r.user_name := by
  cases b <;> rfl

/-- Creating the score row of an unseen user makes it findable. -/
theorem update_user_score_absent (scores : List UserScore) (un : String) (b : Bool)
    (h : scores.find? (fun s => s.user_name == un) = none) :
    (update_user_score scores un b).find? (fun s => s.user_name == un) =
      some (new_user_score un b) := by
  simp only [update_user_score, h]
  rw [List.find?_append, h]
  simp [new_user_score]

/-- Updating the score row of a known user bumps the stored row. -/
theorem update_user_score_present (scores : List UserScore) (un : String) (b : Bool)
    (r : UserScore) (h : scores.find? (fun s => s.user_name == un) = some r) :
    (update_user_score scores un b).find? (fun s => s.user_name == un) =
      some (bump_user_score r b) := by
  have hp := List.find?_some h
  have hpb : (fun s : UserScore => s.user_name == un) (bump_user_score r b) = true := by
    simpa [bump_user_score_user_name] using hp
  simp only [update_user_score, h]
  exact find?_updateFirst h hpb

/-- Folding a run of outcomes over the score upsert adds the number of
correct outcomes to the correct count (and 8 points each), and the
number of wrong outcomes to the wrong count. -/
theorem foldl_update_user_score (un : String) (bs : List Bool) (scores : List UserScore)
    (r : UserScore) (h : scores.find? (fun s => s.user_name == un) = some r) :
    (bs.foldl (fun ss b => update_user_score ss un b) scores).find?
        (fun s => s.user_name == un) =
      some { user_name := r.user_name,
             correct_count := r.correct_count + (bs.count true : Int),
             wrong_count := r.wrong_count + (bs.count false : Int),
             total_score := r.total_score + 8 * (bs.count true : Int) } := by
  induction bs generalizing scores r with
  | nil => simpa using h
  | cons b rest ih =>
    have h2 := update_user_score_present scores un b r h
    have h3 := ih (update_user_score scores un b) (bump_user_score r b) h2
    rw [List.foldl_cons, h3]
    cases b <;>
      simp [bump_user_score, List.count_cons, UserScore.mk.injEq] <;> omega

/-- Decomposition of a successful validation outcome. -/
theorem answer_outcome_some (quizzes : List Quiz) (answer : QuizAnswer) (b : Bool)
    (h : answer_outcome quizzes answer = some b) :
    ∃ quiz co sel, quizzes.find? (fun q => q.id == answer.quizId) = some quiz
      ∧ quiz.options.find? (fun o => o.isCorrect) = some co
      ∧ quiz.options.find? (fun o => o.label == answer.selectedOption) = some sel
      ∧ b = sel.isCorrect := by
  cases hq : quizzes.find? (fun q => q.id == answer.quizId) with
  | none => simp [answer_outcome, hq] at h
  | some quiz =>
    cases hco : quiz.options.find? (fun o => o.isCorrect) with
    | none => simp [answer_outcome, hq, hco] at h
    | some co =>
      cases hsel : quiz.options.find? (fun o => o.label == answer.selectedOption) with
      | none => simp [answer_outcome, hq, hco, hsel] at h
      | some sel =>
        simp only [answer_outcome, hq, hco, hsel, Option.some.injEq] at h
        exact ⟨quiz, co, sel, rfl, hco, hsel, h.symm⟩

/-- An identified valid submission returns the scored result and commits
exactly the three writes: the new answer record, the user-score upsert
and the quiz-stat upsert. -/
theorem submit_answer_eq_ok (quizzes : List Quiz) (answer : QuizAnswer) (db : Database)
    (quiz : Quiz) (co sel : QuizOption)
    (hq : quizzes.find? (fun q => q.id == answer.quizId) = some quiz)
    (hco : quiz.options.find? (fun o => o.isCorrect) = some co)
    (hsel : quiz.options.find? (fun o => o.label == answer.selectedOption) = some sel)
    (hid : (truthy answer.userName && truthy answer.userId) = true) :
    submit_answer quizzes answer db = .ok
      ({ isCorrect := sel.isCorrect, correctAnswer := co.label,
         message := if sel.isCorrect then "回答正确！" else "回答错误，重新试试吧" },
       { quiz_records := db.quiz_records ++
           [ { quiz_id := answer.quizId, user_id := answer.userId.getD "",
               user_name := answer.userName.getD "",
               selected_option := answer.selectedOption,
               is_correct := sel.isCorrect } ],
         user_scores := update_user_score db.user_scores (answer.userName.getD "") sel.isCorrect,
         quiz_stats := update_quiz_stat db.quiz_stats answer.quizId sel.isCorrect }) := by
  simp [submit_answer, hq, hco, hsel, hid, run_session, submit_session_ops, session_step,
    apply_write]

/-- Once a user has a score row, a run of identified valid submissions
adds its outcome counts to that row. -/
theorem submit_all_accumulates (quizzes : List Quiz) (user : String)
    (answers : List QuizAnswer) (db : Database) (r : UserScore)
    (hid : ∀ a ∈ answers, a.userName = some user ∧ truthy a.userId = true)
    (huser : user ≠ "")
    (hvalid : ∀ a ∈ answers, (answer_outcome quizzes a).isSome)
    (h : db.user_scores.find? (fun s => s.user_name == user) = some r) :
    (submit_all quizzes answers db).user_scores.find? (fun s => s.user_name == user) =
      some { user_name := r.user_name,
             correct_count := r.correct_count +
               ((answers.filterMap (answer_outcome quizzes)).count true : Int),
             wrong_count := r.wrong_count +
               ((answers.filterMap (answer_outcome quizzes)).count false : Int),
             total_score := r.total_score +
               8 * ((answers.filterMap (answer_outcome quizzes)).count true : Int) } := by
  induction answers generalizing db r with
  | nil => simpa using h
  | cons a rest ih =>
    obtain ⟨b, hb⟩ := Option.isSome_iff_exists.mp (hvalid a (List.mem_cons_self a rest))
    obtain ⟨quiz, co, sel, hq, hco, hsel, rfl⟩ := answer_outcome_some quizzes a b hb
    obtain ⟨hname, hidu⟩ := hid a (List.mem_cons_self a rest)
    have hidn : truthy a.userName = true := by
      rw [hname]
      simpa [truthy] using huser
    have hok := submit_answer_eq_ok quizzes a db quiz co sel hq hco hsel
      (by simp [hidn, hidu])
    rw [hname] at hok
    simp only [Option.getD_some] at hok
    have h2 : (update_user_score db.user_scores user sel.isCorrect).find?
        (fun s => s.user_name == user) = some (bump_user_score r sel.isCorrect) :=
      update_user_score_present db.user_scores user sel.isCorrect r h
    have h3 := ih
      { quiz_records := db.quiz_records ++
          [ { quiz_id := a.quizId, user_id := a.userId.getD "", user_name := user,
              selected_option := a.selectedOption, is_correct := sel.isCorrect } ],
        user_scores := update_user_score db.user_scores user sel.isCorrect,
        quiz_stats := update_quiz_stat db.quiz_stats a.quizId sel.isCorrect }
      (bump_user_score r sel.isCorrect)
      (fun x hx => hid x (List.mem_cons_of_mem a hx))
      (fun x hx => hvalid x (List.mem_cons_of_mem a hx))
      h2
    simp only [submit_all, List.foldl_cons, hok] at h3 ⊢
    rw [h3, List.filterMap_cons, hb]
    cases hc : sel.isCorrect <;>
      simp [bump_user_score, List.count_cons, UserScore.mk.injEq,
        bump_user_score_user_name] <;> omega

/-! ### Claims -/

/-- C1: the spec requires `getQuizStats` to report the counts accumulated
by prior submissions (two submissions to quiz_1, one correct and one
wrong, giving correct=1, wrong=1, total=2, accuracy=50). The code
violates this: after exactly those two identified submissions the
database `quiz_stats` table holds correct=1, wrong=1, total=2 — the
writes happen — but the handler reads the never-written in-memory
dictionary and returns all zeros. -/
theorem c1_code_bug_evidence :
    get_quiz_stats (run_api initial_state c1_submissions).quiz_stats "quiz_1" =
      { correct := 0, wrong := 0, total := 0, accuracy_x100 := 0 }
    ∧ (run_api initial_state c1_submissions).db.quiz_stats =
      [ { quiz_id := "quiz_1", correct_count := 1, wrong_count := 1, total_count := 2 } ] :=
  ⟨by decide, by decide⟩

/-- C2: in every reachable state the in-memory `quiz_stats` dictionary is
empty — no operation writes it — so after any sequence of requests
`get_quiz_stats` returns zeroed statistics for every quiz id. -/
theorem c2_quiz_stats_always_zero (ops : List ApiOp) :
    (run_api initial_state ops).quiz_stats = []
    ∧ ∀ quiz_id, get_quiz_stats (run_api initial_state ops).quiz_stats quiz_id =
        { correct := 0, wrong := 0, total := 0, accuracy_x100 := 0 } := by
  have h : (run_api initial_state ops).quiz_stats = [] := run_api_quiz_stats ops initial_state
  exact ⟨h, fun quiz_id => by rw [h]; rfl⟩

/-- C9: for a comment present in the ledger (with its invariant
non-negative like count), liking then unliking restores the like count:
like(true) answers likes+1 and sets the flag, the following like(false)
answers the original count and the stored comment keeps its original
like count with the flag cleared. -/
theorem c9_like_unlike_roundtrip (comments : List Comment) (commentId : String) (c : Comment)
    (hfind : comments.find? (fun x => x.id == commentId) = some c)
    (hnn : 0 ≤ c.likes) :
    ∃ comments2,
      toggle_like comments commentId true = .ok (c.likes + 1, comments2)
      ∧ ∃ comments3,
          toggle_like comments2 commentId false = .ok (c.likes, comments3)
          ∧ comments3.find? (fun x => x.id == commentId) = some { c with liked := false } := by
  have hpc := List.find?_some hfind
  have hmax : max 0 (c.likes + 1 - 1) = c.likes := by omega
  have hfind2 : (updateFirst (fun x => x.id == commentId)
      (fun _ => { c with likes := c.likes + 1, liked := true }) comments).find?
      (fun x => x.id == commentId) = some { c with likes := c.likes + 1, liked := true } :=
    find?_updateFirst hfind hpc
  refine ⟨updateFirst (fun x => x.id == commentId)
      (fun _ => { c with likes := c.likes + 1, liked := true }) comments, ?_,
    updateFirst (fun x => x.id == commentId)
      (fun _ => { c with likes := c.likes, liked := false })
      (updateFirst (fun x => x.id == commentId)
        (fun _ => { c with likes := c.likes + 1, liked := true }) comments), ?_, ?_⟩
  · simp [toggle_like, hfind]
  · have hmax2 : 0 ⊔ c.likes = c.likes := max_eq_right hnn
    simp [toggle_like, hfind2, hmax, hmax2, hnn]
  · exact find?_updateFirst
      (f := fun _ => { c with likes := c.likes, liked := false }) hfind2 hpc

/-- C9 witness: a concrete ledger with one comment with 3 likes. -/
theorem c9_like_unlike_roundtrip_witness :
    ∃ comments2,
      toggle_like [ { id := "comment_abc", userName := "alice", content := "不错",
                      time := "12:00", likes := 3, liked := false } ] "comment_abc" true =
        .ok (4, comments2)
      ∧ ∃ comments3,
          toggle_like comments2 "comment_abc" false = .ok (3, comments3)
          ∧ comments3.find? (fun x => x.id == "comment_abc") =
              some { id := "comment_abc", userName := "alice", content := "不错",
                     time := "12:00", likes := 3, liked := false } :=
  c9_like_unlike_roundtrip
    [ { id := "comment_abc", userName := "alice", content := "不错",
        time := "12:00", likes := 3, liked := false } ]
    "comment_abc"
    { id := "comment_abc", userName := "alice", content := "不错",
      time := "12:00", likes := 3, liked := false }
    (by decide) (by decide)

/-- C10: with zero stored answer records, auto-save returns
success=false with the "no records" message and exports nothing, while
the direct export still produces a sheet holding exactly the header row
(sequence number, user name, quiz id, selected option, result label,
time). -/
theorem c10_empty_export (time_fmt : QuizRecord → String) :
    auto_save_quiz_records [] time_fmt =
      ({ success := false, message := "暂无答题记录" }, none)
    ∧ export_rows [] time_fmt = [export_headers] :=
  ⟨rfl, rfl⟩

/-- C3: for any quiz table, a quiz found in it whose options carry
exactly one correct flag, and a selected label matching one of its
options, submitting returns isCorrect equal to the configured flag of
the selected option, correctAnswer equal to the label of the one option
flagged correct, and the fixed message determined by correctness. -/
theorem c3_submit_result (quizzes : List Quiz) (answer : QuizAnswer) (db : Database)
    (quiz : Quiz) (correct_opt selected_opt : QuizOption)
    (hq : quizzes.find? (fun q => q.id == answer.quizId) = some quiz)
    (hone : quiz.options.filter (fun o => o.isCorrect) = [correct_opt])
    (hsel : quiz.options.find? (fun o => o.label == answer.selectedOption) = some selected_opt) :
    ∃ db2, submit_answer quizzes answer db = .ok
      ({ isCorrect := selected_opt.isCorrect,
         correctAnswer := correct_opt.label,
         message := if selected_opt.isCorrect then "回答正确！" else "回答错误，重新试试吧" }, db2) := by
  have hco : quiz.options.find? (fun o => o.isCorrect) = some correct_opt :=
    find?_of_filter_singleton hone
  refine ⟨if truthy answer.userName && truthy answer.userId then
      (run_session { committed := db, pending := [] }
        (submit_session_ops answer selected_opt.isCorrect)).committed
    else db, ?_⟩
  simp [submit_answer, hq, hco, hsel]

/-- C3 witness: submitting the wrong label "B" to quiz_1 answers
isCorrect=false with correctAnswer="A". -/
theorem c3_submit_result_witness :
    ∃ db2, submit_answer quizzes_db
        { quizId := "quiz_1", selectedOption := "B", userName := none, userId := none } empty_db =
      .ok ({ isCorrect := false, correctAnswer := "A", message := "回答错误，重新试试吧" }, db2) :=
  c3_submit_result quizzes_db
    { quizId := "quiz_1", selectedOption := "B", userName := none, userId := none } empty_db
    quiz_1
    { label := "A", text := "因为这个声压级既能保持听觉敏感度，又能防止听力疲劳", isCorrect := true }
    { label := "B", text := "因为声音越大越容易听清细节", isCorrect := false }
    (by decide) (by decide) (by decide)

/-- C5 counterexample: a quiz configured with two options flagged
correct is not rejected — submitting a matching label returns a scored
result (the first flagged option serves as the correct answer) instead
of the InvalidInput failure the claim requires. -/
theorem c5_counterexample :
    submit_answer
      [ { id := "quiz_bad", question := "q",
          options := [ { label := "A", text := "a", isCorrect := true },
                       { label := "B", text := "b", isCorrect := true } ] } ]
      { quizId := "quiz_bad", selectedOption := "B", userName := none, userId := none }
      empty_db =
      .ok ({ isCorrect := true, correctAnswer := "A", message := "回答正确！" }, empty_db) := by
  decide

/-- C5 amended: submit fails with NotFound exactly when the quizId is
unknown, and with InvalidInput exactly when the quiz is known but either
no option at all is flagged correct or the selected label matches no
option; a quiz with more than one correct option is not rejected (the
first flagged option is used). -/
theorem c5_amended_errors (quizzes : List Quiz) (answer : QuizAnswer) (db : Database) :
    (submit_answer quizzes answer db = .error (.notFound "问题不存在") ↔
       quizzes.find? (fun q => q.id == answer.quizId) = none)
    ∧ (submit_answer quizzes answer db = .error (.invalidInput "无效的选项") ↔
       ∃ quiz, quizzes.find? (fun q => q.id == answer.quizId) = some quiz ∧
         (quiz.options.find? (fun o => o.isCorrect) = none ∨
          quiz.options.find? (fun o => o.label == answer.selectedOption) = none)) := by
  cases hq : quizzes.find? (fun q => q.id == answer.quizId) with
  | none => simp [submit_answer, hq]
  | some quiz =>
    cases hco : quiz.options.find? (fun o => o.isCorrect) with
    | none =>
      simp only [submit_answer, hq, hco]
      constructor
      · simp
      · simp [hq]
        exact Or.inl (fun x hx2 => by simpa using List.find?_eq_none.mp hco x hx2)
    | some co =>
      cases hsel : quiz.options.find? (fun o => o.label == answer.selectedOption) with
      | none =>
        simp only [submit_answer, hq, hco, hsel]
        constructor
        · simp
        · simp [hq]
          exact Or.inr (fun x hx2 => by simpa using List.find?_eq_none.mp hsel x hx2)
      | some sel =>
        simp [submit_answer, hq, hco, hsel]
        exact ⟨⟨co, List.mem_of_find?_eq_some hco, by simpa using List.find?_some hco⟩,
               ⟨sel, List.mem_of_find?_eq_some hsel, by simpa using List.find?_some hsel⟩⟩

/-- C8: an anonymous submission (userName or userId missing in the
Python-truthiness sense) against a known quiz and a matching label is
scored and returned, but the database is left completely unchanged: no
answer record, no user score, no quiz stat. -/
theorem c8_anonymous_not_persisted (quizzes : List Quiz) (answer : QuizAnswer) (db : Database)
    (quiz : Quiz) (correct_opt selected_opt : QuizOption)
    (hq : quizzes.find? (fun q => q.id == answer.quizId) = some quiz)
    (hco : quiz.options.find? (fun o => o.isCorrect) = some correct_opt)
    (hsel : quiz.options.find? (fun o => o.label == answer.selectedOption) = some selected_opt)
    (hanon : truthy answer.userName = false ∨ truthy answer.userId = false) :
    submit_answer quizzes answer db = .ok
      ({ isCorrect := selected_opt.isCorrect,
         correctAnswer := correct_opt.label,
         message := if selected_opt.isCorrect then "回答正确！" else "回答错误，重新试试吧" }, db) := by
  have hand : (truthy answer.userName && truthy answer.userId) = false := by
    rcases hanon with h | h <;> simp [h]
  simp [submit_answer, hq, hco, hsel, hand]

/-- C4: for an identified user (userName and userId supplied on every
submission), a nonempty run of valid submissions starting from no stored
row leaves a UserScore row with correct_count = the number of correct
outcomes, wrong_count = the number of wrong outcomes, and total_score =
8 (the fixed per-correct-answer increment) times the correct count; and
the row created by a first answer is (1, 0, 8) when correct and
(0, 1, 0) when wrong. -/
theorem c4_user_score_accumulation (quizzes : List Quiz) (user : String)
    (answers : List QuizAnswer) (db : Database)
    (hne : answers ≠ [])
    (hid : ∀ a ∈ answers, a.userName = some user ∧ truthy a.userId = true)
    (huser : user ≠ "")
    (hvalid : ∀ a ∈ answers, (answer_outcome quizzes a).isSome)
    (habsent : db.user_scores.find? (fun s => s.user_name == user) = none) :
    (submit_all quizzes answers db).user_scores.find? (fun s => s.user_name == user) =
      some { user_name := user,
             correct_count := ((answers.filterMap (answer_outcome quizzes)).count true : Int),
             wrong_count := ((answers.filterMap (answer_outcome quizzes)).count false : Int),
             total_score := 8 * ((answers.filterMap (answer_outcome quizzes)).count true : Int) }
    ∧ ∀ b : Bool,
        (update_user_score db.user_scores user b).find? (fun s => s.user_name == user) =
          some { user_name := user,
                 correct_count := if b then 1 else 0,
                 wrong_count := if b then 0 else 1,
                 total_score := if b then 8 else 0 } := by
  constructor
  · cases answers with
    | nil => exact absurd rfl hne
    | cons a rest =>
      obtain ⟨b, hb⟩ := Option.isSome_iff_exists.mp (hvalid a (List.mem_cons_self a rest))
      obtain ⟨quiz, co, sel, hq, hco, hsel, rfl⟩ := answer_outcome_some quizzes a b hb
      obtain ⟨hname, hidu⟩ := hid a (List.mem_cons_self a rest)
      have hidn : truthy a.userName = true := by
        rw [hname]
        simpa [truthy] using huser
      have hok := submit_answer_eq_ok quizzes a db quiz co sel hq hco hsel
        (by simp [hidn, hidu])
      rw [hname] at hok
      simp only [Option.getD_some] at hok
      have h2 := update_user_score_absent db.user_scores user sel.isCorrect habsent
      have h3 := submit_all_accumulates quizzes user rest
        { quiz_records := db.quiz_records ++
            [ { quiz_id := a.quizId, user_id := a.userId.getD "", user_name := user,
                selected_option := a.selectedOption, is_correct := sel.isCorrect } ],
          user_scores := update_user_score db.user_scores user sel.isCorrect,
          quiz_stats := update_quiz_stat db.quiz_stats a.quizId sel.isCorrect }
        (new_user_score user sel.isCorrect)
        (fun x hx => hid x (List.mem_cons_of_mem a hx))
        huser
        (fun x hx => hvalid x (List.mem_cons_of_mem a hx))
        h2
      simp only [submit_all, List.foldl_cons, hok] at h3 ⊢
      rw [h3, List.filterMap_cons, hb]
      cases hc : sel.isCorrect <;>
        simp [new_user_score, List.count_cons, UserScore.mk.injEq] <;> omega
  · intro b
    exact update_user_score_absent db.user_scores user b habsent

/-- C4 witness: two identified submissions by 张三 to quiz_1 (one
correct, one wrong) from an empty database leave the row
(correct=1, wrong=1, score=8). -/
theorem c4_user_score_accumulation_witness :
    (submit_all quizzes_db
      [ { quizId := "quiz_1", selectedOption := "A", userName := some "张三", userId := some "user_1" },
        { quizId := "quiz_1", selectedOption := "B", userName := some "张三", userId := some "user_1" } ]
      empty_db).user_scores.find? (fun s => s.user_name == "张三") =
      some { user_name := "张三", correct_count := 1, wrong_count := 1, total_score := 8 } :=
  (c4_user_score_accumulation quizzes_db "张三"
    [ { quizId := "quiz_1", selectedOption := "A", userName := some "张三", userId := some "user_1" },
      { quizId := "quiz_1", selectedOption := "B", userName := some "张三", userId := some "user_1" } ]
    empty_db (by decide) (by decide) (by decide) (by decide) (by decide)).1

/-- C7: for an identified submission accepted by `submit_answer`, the
three persistent writes happen atomically through one session commit:
stopping the session anywhere before the final commit (any proper prefix
of its operations) leaves the committed database exactly as before,
while the full session commits precisely the database the handler
returns. -/
theorem c7_atomic_commit (quizzes : List Quiz) (answer : QuizAnswer) (db : Database)
    (res : QuizResult) (db2 : Database)
    (hid : (truthy answer.userName && truthy answer.userId) = true)
    (hok : submit_answer quizzes answer db = .ok (res, db2)) :
    (∀ n, n < (submit_session_ops answer res.isCorrect).length →
       (run_session { committed := db, pending := [] }
         ((submit_session_ops answer res.isCorrect).take n)).committed = db)
    ∧ (run_session { committed := db, pending := [] }
        (submit_session_ops answer res.isCorrect)).committed = db2 := by
  constructor
  · intro n hn
    apply run_session_no_commit
    have hlen : (submit_session_ops answer res.isCorrect).length = 4 := rfl
    rw [hlen] at hn
    interval_cases n <;> simp [submit_session_ops, List.take]
  · cases hq : quizzes.find? (fun q => q.id == answer.quizId) with
    | none => simp [submit_answer, hq] at hok
    | some quiz =>
      cases hco : quiz.options.find? (fun o => o.isCorrect) with
      | none => simp [submit_answer, hq, hco] at hok
      | some co =>
        cases hsel : quiz.options.find? (fun o => o.label == answer.selectedOption) with
        | none => simp [submit_answer, hq, hco, hsel] at hok
        | some sel =>
          simp only [submit_answer, hq, hco, hsel, hid, if_true, Bool.and_eq_true,
            Except.ok.injEq, Prod.mk.injEq] at hok
          obtain ⟨hres, hdb2⟩ := hok
          rw [← hres]
          simpa using hdb2

/-- C7 witness: the full session of one identified correct submission to
quiz_1 from an empty database commits exactly the record, the score row
and the stat row. -/
theorem c7_atomic_commit_witness :
    (run_session { committed := empty_db, pending := [] }
      (submit_session_ops
        { quizId := "quiz_1", selectedOption := "A", userName := some "张三", userId := some "user_1" }
        true)).committed =
      { quiz_records := [ { quiz_id := "quiz_1", user_id := "user_1", user_name := "张三",
                            selected_option := "A", is_correct := true } ],
        user_scores := [ { user_name := "张三", correct_count := 1, wrong_count := 0,
                           total_score := 8 } ],
        quiz_stats := [ { quiz_id := "quiz_1", correct_count := 1, wrong_count := 0,
                          total_count := 1 } ] } :=
  (c7_atomic_commit quizzes_db
    { quizId := "quiz_1", selectedOption := "A", userName := some "张三", userId := some "user_1" }
    empty_db
    { isCorrect := true, correctAnswer := "A", message := "回答正确！" }
    { quiz_records := [ { quiz_id := "quiz_1", user_id := "user_1", user_name := "张三",
                          selected_option := "A", is_correct := true } ],
      user_scores := [ { user_name := "张三", correct_count := 1, wrong_count := 0,
                         total_score := 8 } ],
      quiz_stats := [ { quiz_id := "quiz_1", correct_count := 1, wrong_count := 0,
                        total_count := 1 } ] }
    (by decide) (by decide)).2

/-- C8 witness: an anonymous correct submission to quiz_1 leaves the
empty database empty. -/
theorem c8_anonymous_not_persisted_witness :
    submit_answer quizzes_db
      { quizId := "quiz_1", selectedOption := "A", userName := none, userId := some "user_1" }
      empty_db =
      .ok ({ isCorrect := true, correctAnswer := "A", message := "回答正确！" }, empty_db) :=
  c8_anonymous_not_persisted quizzes_db
    { quizId := "quiz_1", selectedOption := "A", userName := none, userId := some "user_1" }
    empty_db quiz_1
    { label := "A", text := "因为这个声压级既能保持听觉敏感度，又能防止听力疲劳", isCorrect := true }
    { label := "A", text := "因为这个声压级既能保持听觉敏感度，又能防止听力疲劳", isCorrect := true }
    (by decide) (by decide) (by decide) (Or.inl (by decide))

/-- Inserting into the descending-sorted list grows it by one. -/
theorem length_insert_score_desc (u : UserScore) (l : List UserScore) :
    (insert_score_desc u l).length = l.length + 1 := by
  induction l with
  | nil => rfl
  | cons v rest ih =>
    by_cases hc : v.total_score ≤ u.total_score <;>
      simp [insert_score_desc, hc, ih]

/-- Members of the list after insertion. -/
theorem mem_insert_score_desc {u x : UserScore} {l : List UserScore}
    (h : x ∈ insert_score_desc u l) : x = u ∨ x ∈ l := by
  induction l with
  | nil => simpa [insert_score_desc] using h
  | cons v rest ih =>
    by_cases hc : v.total_score ≤ u.total_score
    · simp only [insert_score_desc, if_pos hc] at h
      rcases List.mem_cons.mp h with rfl | h2
      · exact Or.inl rfl
      · exact Or.inr h2
    · simp only [insert_score_desc, if_neg hc] at h
      rcases List.mem_cons.mp h with rfl | h2
      · exact Or.inr (List.mem_cons_self _ _)
      · rcases ih h2 with rfl | h3
        · exact Or.inl rfl
        · exact Or.inr (List.mem_cons_of_mem _ h3)

/-- Insertion preserves descending order by score. -/
theorem pairwise_insert_score_desc {u : UserScore} {l : List UserScore}
    (h : l.Pairwise (fun a b => b.total_score ≤ a.total_score)) :
    (insert_score_desc u l).Pairwise (fun a b => b.total_score ≤ a.total_score) := by
  induction l with
  | nil => simp [insert_score_desc]
  | cons v rest ih =>
    obtain ⟨hv, hrest⟩ := List.pairwise_cons.mp h
    by_cases hc : v.total_score ≤ u.total_score
    · simp only [insert_score_desc, if_pos hc]
      refine List.pairwise_cons.mpr ⟨?_, h⟩
      intro y hy
      rcases List.mem_cons.mp hy with rfl | hy2
      · exact hc
      · exact le_trans (hv y hy2) hc
    · simp only [insert_score_desc, if_neg hc]
      refine List.pairwise_cons.mpr ⟨?_, ih hrest⟩
      intro y hy
      rcases mem_insert_score_desc hy with rfl | hy2
      · exact le_of_lt (not_le.mp hc)
      · exact hv y hy2

/-- Sorting does not change the number of rows. -/
theorem length_order_by_score_desc (l : List UserScore) :
    (order_by_score_desc l).length = l.length := by
  induction l with
  | nil => rfl
  | cons v rest ih =>
    simp only [order_by_score_desc, List.foldr_cons, length_insert_score_desc, List.length_cons]
    simp only [order_by_score_desc] at ih
    rw [ih]

/-- The sorted rows are in non-increasing score order. -/
theorem sorted_order_by_score_desc (l : List UserScore) :
    (order_by_score_desc l).Pairwise (fun a b => b.total_score ≤ a.total_score) := by
  induction l with
  | nil => simp [order_by_score_desc]
  | cons v rest ih =>
    simp only [order_by_score_desc, List.foldr_cons]
    simp only [order_by_score_desc] at ih
    exact pairwise_insert_score_desc ih

/-- Insertion rearranges nothing: the result is a permutation of the
element put in front of the old list. -/
theorem perm_insert_score_desc (u : UserScore) (l : List UserScore) :
    List.Perm (insert_score_desc u l) (u :: l) := by
  induction l with
  | nil => exact List.Perm.refl _
  | cons v rest ih =>
    by_cases hc : v.total_score ≤ u.total_score
    · simp only [insert_score_desc, if_pos hc]
      exact List.Perm.refl _
    · simp only [insert_score_desc, if_neg hc]
      exact (ih.cons v).trans (List.Perm.swap u v rest)

/-- The sorted list is a permutation of the stored rows: every row
appears, with multiplicity, and nothing else. -/
theorem perm_order_by_score_desc (l : List UserScore) :
    List.Perm (order_by_score_desc l) l := by
  induction l with
  | nil => exact List.Perm.refl _
  | cons v rest ih =>
    simp only [order_by_score_desc, List.foldr_cons]
    simp only [order_by_score_desc] at ih
    exact (perm_insert_score_desc v _).trans (ih.cons v)

/-- Inserting a row leaves every score class in order: the rows of score
`s` after insertion are the old ones in their old order, with `u` put in
front exactly when `u` has score `s` (every row passed over on the way
in has a strictly larger score). -/
theorem filter_insert_score_desc (u : UserScore) (l : List UserScore) (s : Int) :
    (insert_score_desc u l).filter (fun v => v.total_score == s) =
      if u.total_score == s then u :: l.filter (fun v => v.total_score == s)
      else l.filter (fun v => v.total_score == s) := by
  induction l with
  | nil =>
    by_cases hu : u.total_score == s <;>
      simp [insert_score_desc, List.filter_cons, hu]
  | cons v rest ih =>
    by_cases hc : v.total_score ≤ u.total_score
    · simp only [insert_score_desc, if_pos hc]
      by_cases hu : u.total_score == s <;> simp [List.filter_cons, hu]
    · simp only [insert_score_desc, if_neg hc]
      by_cases hv : v.total_score == s
      · by_cases hu : u.total_score == s
        · exfalso
          have h1 : v.total_score = s := by simpa using hv
          have h2 : u.total_score = s := by simpa using hu
          exact hc (by rw [h1, h2])
        · simp [List.filter_cons, hv, hu, ih]
      · simp [List.filter_cons, hv, ih]

/-- Stability of the sort: inside each score class (a set of tied rows)
the sorted order is exactly the insertion/arrival order of the table. -/
theorem filter_order_by_score_desc (l : List UserScore) (s : Int) :
    (order_by_score_desc l).filter (fun v => v.total_score == s) =
      l.filter (fun v => v.total_score == s) := by
  induction l with
  | nil => rfl
  | cons v rest ih =>
    simp only [order_by_score_desc, List.foldr_cons]
    rw [filter_insert_score_desc]
    simp only [order_by_score_desc] at ih
    rw [ih]
    by_cases hv : v.total_score == s <;> simp [List.filter_cons, hv]

/-- Positional description of the leaderboard: the entry at position `i`
annotates the `i`-th sorted row with rank `i + 1`. -/
theorem get_user_stats_getD (users : List UserScore) (i : Nat)
    (hi : i < (order_by_score_desc users).length) :
    (get_user_stats users).getD i default_entry =
      user_stat_entry (i + 1) ((order_by_score_desc users).getD i default_user) := by
  have h1 : i < (get_user_stats users).length := by
    simpa [get_user_stats, List.enum_length] using hi
  rw [List.getD_eq_getElem _ _ h1, List.getD_eq_getElem _ _ hi]
  simp [get_user_stats, List.getElem_map, List.getElem_enum]

/-- C6 counterexample: with two stored users of equal total_score 8, the
leaderboard annotates them with ranks 1 and 2 — the 1-based positions —
not with a shared dense rank 1 as the claim requires for equal scores. -/
theorem c6_counterexample :
    (get_user_stats
      [ { user_name := "u1", correct_count := 1, wrong_count := 0, total_score := 8 },
        { user_name := "u2", correct_count := 1, wrong_count := 0, total_score := 8 } ]).map
      (fun e => (e.score, e.rank)) = [(8, 1), (8, 2)] := by
  decide

/-- C6 amended: getLeaderboard returns exactly the stored UserScore rows
— `order_by_score_desc users` is a permutation of the table — ordered by
total_score descending, with ties broken stably: inside every score
class the sorted order is the insertion/arrival order (the per-score
filtrations coincide). The entry at position `i` is the annotation of
the `i`-th sorted row itself: its userName, score, correct and wrong
counts are that row's fields, its rank is the 1-based position `i + 1`
(equal scores receive distinct consecutive ranks, not a shared dense
rank), its total answered is correct + wrong, and its accuracy is
rounded to 2 decimals (0 when the user has no answers). -/
theorem c6_leaderboard_amended (users : List UserScore) :
    (get_user_stats users).length = users.length
    ∧ List.Perm (order_by_score_desc users) users
    ∧ (∀ s : Int, (order_by_score_desc users).filter (fun v => v.total_score == s) =
        users.filter (fun v => v.total_score == s))
    ∧ (∀ i, i < users.length →
        (get_user_stats users).getD i default_entry =
          { rank := i + 1,
            userName := ((order_by_score_desc users).getD i default_user).user_name,
            score := ((order_by_score_desc users).getD i default_user).total_score,
            correct := ((order_by_score_desc users).getD i default_user).correct_count,
            wrong := ((order_by_score_desc users).getD i default_user).wrong_count,
            total := ((order_by_score_desc users).getD i default_user).correct_count +
              ((order_by_score_desc users).getD i default_user).wrong_count,
            accuracy_x100 :=
              if 0 < ((order_by_score_desc users).getD i default_user).correct_count +
                  ((order_by_score_desc users).getD i default_user).wrong_count then
                accuracy_x100
                  ((order_by_score_desc users).getD i default_user).correct_count
                  (((order_by_score_desc users).getD i default_user).correct_count +
                    ((order_by_score_desc users).getD i default_user).wrong_count)
              else 0 })
    ∧ (∀ i j, i ≤ j → ∀ hj : j < (get_user_stats users).length,
        ((get_user_stats users).getD j default_entry).score ≤
          ((get_user_stats users).getD i default_entry).score)
    ∧ (∀ i, i < (get_user_stats users).length →
        ((get_user_stats users).getD i default_entry).rank = i + 1)
    ∧ (∀ e ∈ get_user_stats users,
        e.total = e.correct + e.wrong
        ∧ e.accuracy_x100 = if 0 < e.total then accuracy_x100 e.correct e.total else 0) := by
  have hlen_sort : (order_by_score_desc users).length = users.length :=
    length_order_by_score_desc users
  have hlen : (get_user_stats users).length = users.length := by
    simp [get_user_stats, List.enum_length, hlen_sort]
  refine ⟨hlen, perm_order_by_score_desc users, fun s => filter_order_by_score_desc users s,
    ?_, ?_, ?_, ?_⟩
  · intro i hi
    have hi2 : i < (order_by_score_desc users).length := by rw [hlen_sort]; exact hi
    rw [get_user_stats_getD users i hi2]
    rfl
  · intro i j hij hj
    rw [hlen] at hj
    have hj2 : j < (order_by_score_desc users).length := by rw [hlen_sort]; exact hj
    have hi2 : i < (order_by_score_desc users).length := lt_of_le_of_lt hij hj2
    rw [get_user_stats_getD users i hi2, get_user_stats_getD users j hj2]
    simp only [user_stat_entry]
    rw [List.getD_eq_getElem _ _ hi2, List.getD_eq_getElem _ _ hj2]
    rcases lt_or_eq_of_le hij with hlt | rfl
    · exact List.pairwise_iff_getElem.mp (sorted_order_by_score_desc users) i j hi2 hj2 hlt
    · exact le_refl _
  · intro i hi
    rw [hlen] at hi
    have hi2 : i < (order_by_score_desc users).length := by rw [hlen_sort]; exact hi
    rw [get_user_stats_getD users i hi2]
    rfl
  · intro e he
    simp only [get_user_stats, List.mem_map] at he
    obtain ⟨p, hp, rfl⟩ := he
    exact ⟨rfl, rfl⟩

/-- C6 witness: a two-user leaderboard, checking one ordering instance
and one per-position row-annotation instance concretely. -/
theorem c6_leaderboard_amended_witness :
    ((get_user_stats
      [ { user_name := "a", correct_count := 1, wrong_count := 0, total_score := 8 },
        { user_name := "b", correct_count := 0, wrong_count := 1, total_score := 0 } ]).getD 1
        default_entry).score ≤
      ((get_user_stats
        [ { user_name := "a", correct_count := 1, wrong_count := 0, total_score := 8 },
          { user_name := "b", correct_count := 0, wrong_count := 1, total_score := 0 } ]).getD 0
        default_entry).score
    ∧ (get_user_stats
        [ { user_name := "a", correct_count := 1, wrong_count := 0, total_score := 8 },
          { user_name := "b", correct_count := 0, wrong_count := 1, total_score := 0 } ]).getD 0
        default_entry =
      { rank := 1, userName := "a", score := 8, correct := 1, wrong := 0, total := 1,
        accuracy_x100 := 10000 } :=
  ⟨(c6_leaderboard_amended
      [ { user_name := "a", correct_count := 1, wrong_count := 0, total_score := 8 },
        { user_name := "b", correct_count := 0, wrong_count := 1, total_score := 0 } ]).2.2.2.2.1
      0 1 (by decide) (by decide),
    (c6_leaderboard_amended
      [ { user_name := "a", correct_count := 1, wrong_count := 0, total_score := 8 },
        { user_name := "b", correct_count := 0, wrong_count := 1, total_score := 0 } ]).2.2.2.1
      0 (by decide)⟩

end KnowledgeShare
